import Mathlib

/-!
Verification of the cobald daemon runtime core against its specification.

The development shallowly embeds the two central modules:

* `cobald/daemon/config/mapping.py` — the `Translator` (recursive document
  resolution with `__type__` construction and error attribution), the
  `SectionPlugin` descriptor with its entry-point option parser, and
  `load_configuration` (top-level section orchestration).
* `cobald/utility/concurrent/base_runner.py` and `asyncio_runner.py` — the
  execution runner: payload registration, the tick loop (`await_all`,
  `_start_outstanding`, `_manage_running`, `_cancel_running`), `run` and
  `stop`.

Python values are embedded as the inductive `Node` (scalars, string-keyed
mappings, sequences); exceptions as `BaseExc`/`PyErr`; ambient interpreter
state (importable modules, attribute lookup, callables) as an explicit
`PyWorld`. Mutable state is passed explicitly; functions that can raise
return `Except`.
-/

/-- Document node: one of the scalar kinds, a string-keyed mapping
(insertion order preserved, as in a Python dict), or a sequence. Objects
produced by factories are represented by whatever `Node` the world's
`call` function returns. -/
inductive Node where
  | null
  | str (s : String)
  | int (n : Int)
  | bool (b : Bool)
  | dict (entries : List (String × Node))
  | list (items : List Node)

/-- Python exceptions other than `ConfigurationError` that the embedded
code can raise or wrap. `orphanedReturn` carries `who` (the payload,
identified by its id) and `value`, as in `OrphanedReturn.__init__`. -/
inductive BaseExc where
  | valueError (msg : String)
  | keyError (key : String)
  | importError (msg : String)
  | attributeError (msg : String)
  | typeError (msg : String)
  | assertionError (msg : String)
  | orphanedReturn (who : Nat) (value : Node)
  | other (msg : String)

/-- The `what` field of a `ConfigurationError`: either a plain message
(string creation sites) or a wrapped lower-level exception
(`except Exception as err: raise ConfigurationError(where=where, what=err)`). -/
inductive ConfWhat where
  | msg (s : String)
  | exc (e : BaseExc)

/-- An exception as observed by callers: either a base exception or a
`ConfigurationError {what, where}`. The source field `where` is a Lean
keyword, hence `whereStr`; `Option.none` models `where = None` (the
default of `ConfigurationError.__init__`). -/
inductive PyErr where
  | base (e : BaseExc)
  | configurationError (what : ConfWhat) (whereStr : Option String)

/-- Discriminator used to state which exception class an error belongs to. -/
def PyErr.isConfigurationError : PyErr → Bool
  | .configurationError _ _ => true
  | .base _ => false

/-- Membership test `key in mapping` on a Python dict. -/
def hasKey (key : String) (es : List (String × Node)) : Bool :=
  es.any (fun kv => kv.1 = key)

/-- Lookup `mapping[key]` on a Python dict, `Option.none` when absent. -/
def alookup (key : String) : List (String × Node) → Option Node
  | [] => Option.none
  | (k, v) :: rest => if k = key then some v else alookup key rest

/-- Removal of a key from a Python dict, as done by `mapping.pop(key)`
(the dict that remains after the pop). -/
def removeKey (key : String) : List (String × Node) → List (String × Node)
  | [] => []
  | kv :: rest =>
    if kv.1 = key then removeKey key rest else kv :: removeKey key rest

/-- Splitting of a character list at every occurrence of `sep`, used to
embed Python `str.split`. -/
def splitChar (sep : Char) (acc : List Char) : List Char → List (List Char)
  | [] => [acc.reverse]
  | c :: rest =>
    if c = sep then acc.reverse :: splitChar sep [] rest
    else splitChar sep (c :: acc) rest

/-- Python `absolute_name.split(".")`. -/
def pySplitDot (s : String) : List String :=
  (splitChar '.' [] s.toList).map String.mk

/-- Python `str.strip()`: leading and trailing whitespace removed. -/
def pyStrip (s : String) : String :=
  String.mk (((s.toList.dropWhile Char.isWhitespace).reverse.dropWhile
    Char.isWhitespace).reverse)

/-- Python `option.partition("=")`: the text before the first `=`, the
separator (empty when absent), and the text after it. -/
def partitionEq (s : String) : String × String × String :=
  match (splitChar '=' [] s.toList).map String.mk with
  | [] => (s, "", "")
  | [x] => (x, "", "")
  | x :: rest => (x, "=", String.intercalate "=" rest)

/-- Ambient Python interpreter state consulted by `Translator.load_name`
and by factory invocation: whether `__import__(name)` succeeds,
`sys.modules`, attribute traversal, and calling an object with positional
and keyword arguments. -/
structure PyWorld where
  importable : String → Bool
  modules : String → Option Node
  getattr : Node → String → Option Node
  call : Node → List Node → List (String × Node) → Except PyErr Node

/-- Attribute traversal `for component in path[1:]: obj = getattr(obj, component)`;
a missing attribute is reported as a `ConfigurationError` naming the
offending dotted path, with `where` not set. -/
def getattrChain (w : PyWorld) (absolute_name : String) (obj : Node) :
    List String → Except PyErr Node
  | [] => .ok obj
  | comp :: rest =>
    match w.getattr obj comp with
    | some nxt => getattrChain w absolute_name nxt rest
    | Option.none =>
      .error (.configurationError (.msg ("no such object " ++ absolute_name))
        Option.none)

namespace Translator

/-- Embedding of `Translator.load_name`: try `__import__(absolute_name)`;
on success return `sys.modules[absolute_name]`; on `ImportError` fall back
to `sys.modules[path[0]]` (raising `ImportError` if that root module was
never imported) followed by attribute traversal over the remaining path
components. -/
def load_name (w : PyWorld) (absolute_name : String) : Except PyErr Node :=
  let path := pySplitDot absolute_name
  if w.importable absolute_name then
    match w.modules absolute_name with
    | some m => .ok m
    | Option.none => .error (.base (.keyError absolute_name))
  else
    match w.modules (path.headD "") with
    | Option.none =>
      .error (.base (.importError ("No module named " ++ path.headD "")))
    | some obj => getattrChain w absolute_name obj path.tail

/-- Embedding of `Translator.construct`: merge `kwargs` over the mapping,
pop `__type__` to obtain the dotted factory name, resolve it with
`load_name`, pop `__args__` (default `[]`) for positional arguments, and
call the factory with the remaining mapping as keyword arguments. A
non-string `__type__` fails at `absolute_name.split` (AttributeError); a
non-sequence `__args__` fails at argument unpacking (TypeError). -/
def construct (w : PyWorld) (mapping : List (String × Node))
    (kwargs : List (String × Node)) : Except PyErr Node :=
  if hasKey "__type__" kwargs || hasKey "__args__" kwargs then
    .error (.base (.assertionError "kwargs must not carry __type__ or __args__"))
  else
    match alookup "__type__" mapping with
    | Option.none => .error (.base (.keyError "__type__"))
    | some tyNode =>
      let rest1 := removeKey "__type__" mapping
      match tyNode with
      | .str factory_fqdn =>
        match load_name w factory_fqdn with
        | .error e => .error e
        | .ok factory =>
          match alookup "__args__" rest1 with
          | Option.none => w.call factory [] rest1
          | some (.list args) => w.call factory args (removeKey "__args__" rest1)
          | some _ => .error (.base (.typeError "argument unpacking"))
      | _ => .error (.base (.attributeError "split"))

/-- Embedding of the try/except of `translate_hierarchy`: a
`ConfigurationError` whose `where` is unset is re-raised tagged with the
current path, one whose `where` is already set propagates unchanged, and
any other exception is wrapped into a `ConfigurationError` at the current
path. -/
def wrapWhere (whereStr : String) : Except PyErr Node → Except PyErr Node
  | .ok v => .ok v
  | .error (.configurationError what Option.none) =>
    .error (.configurationError what (some whereStr))
  | .error (.configurationError what (some q)) =>
    .error (.configurationError what (some q))
  | .error (.base e) => .error (.configurationError (.exc e) (some whereStr))

mutual

/-- Embedding of `Translator.translate_hierarchy`: mappings are resolved
value by value (path extended by `.key`), and if the resolved mapping
contains `__type__` it is replaced by `construct`; sequences are resolved
element-wise bottom-up (path extended by `[index]`) preserving order;
scalars are returned unchanged; every failure passes through the
try/except embedded as `wrapWhere`. -/
def translate_hierarchy (w : PyWorld) (struct : Node) (whereStr : String) :
    Except PyErr Node :=
  wrapWhere whereStr
    (match struct with
     | .dict entries =>
       match translateEntries w whereStr entries with
       | .error e => .error e
       | .ok entries2 =>
         if hasKey "__type__" entries2 then construct w entries2 []
         else .ok (.dict entries2)
     | .list items =>
       match translateItemsF w whereStr 0 items with
       | .error e => .error e
       | .ok res => .ok (.list res)
     | s2 => .ok s2)
termination_by structural struct

/-- Resolution of the values of a mapping node in key order, mirroring the
dict comprehension of `translate_hierarchy`. -/
def translateEntries (w : PyWorld) (whereStr : String) :
    List (String × Node) → Except PyErr (List (String × Node))
  | [] => .ok []
  | (key, value) :: rest =>
    match translate_hierarchy w value (whereStr ++ "." ++ key) with
    | .error e => .error e
    | .ok v2 =>
      match translateEntries w whereStr rest with
      | .error e => .error e
      | .ok rest2 => .ok ((key, v2) :: rest2)
termination_by structural es => es

/-- Resolution of the elements of a sequence node. The source iterates the
reversed enumeration and reverses the result, so later elements are
evaluated first while the output preserves input order; here the tail is
evaluated before the head, which realises the same evaluation order and
the same output order. -/
def translateItemsF (w : PyWorld) (whereStr : String) (firstIdx : Nat) :
    List Node → Except PyErr (List Node)
  | [] => .ok []
  | item :: rest =>
    match translateItemsF w whereStr (firstIdx + 1) rest with
    | .error e => .error e
    | .ok rest2 =>
      match translate_hierarchy w item
          (whereStr ++ "[" ++ toString firstIdx ++ "]") with
      | .error e => .error e
      | .ok v2 => .ok (v2 :: rest2)
termination_by structural xs => xs

end

mutual

/-- Inert documents: no mapping anywhere in the tree carries the
`__type__` marker key. -/
def inert : Node → Bool
  | .dict entries => !hasKey "__type__" entries && inertEntries entries
  | .list items => inertItems items
  | _ => true
termination_by structural s => s

/-- Pointwise inertness of the values of a mapping. -/
def inertEntries : List (String × Node) → Bool
  | [] => true
  | (_, v) :: rest => inert v && inertEntries rest
termination_by structural es => es

/-- Pointwise inertness of the elements of a sequence. -/
def inertItems : List Node → Bool
  | [] => true
  | x :: rest => inert x && inertItems rest
termination_by structural xs => xs

end

end Translator

/-- Embedding of `SectionPlugin`: the descriptor for one top-level
configuration section. The source field `section` is a Lean keyword,
hence `sectionName`. The `digest` callable returns `Option.none` when the
plugin retains nothing. Plugins are identified by object identity in the
source; `id` stands for that identity. -/
structure SectionPlugin where
  sectionName : String
  digest : Node → Option Node
  required : Bool
  before : List String
  after : List String
  id : Nat

/-- Embedding of a pre-parsed `entrypoints.EntryPoint` as consumed by
`SectionPlugin.load`: the section name, the option strings (`extras`),
and the digest callable the entry point loads. -/
structure EntryPoint where
  name : String
  extras : List String
  digestFun : Node → Option Node
  id : Nat

/-- Mutable `options` dict accumulated by the loop of `SectionPlugin.load`. -/
structure PluginOptions where
  before : List String
  after : List String
  required : Bool

/-- Option-parsing loop of `SectionPlugin.load`: `required` is a flag;
otherwise the option is partitioned at `=` and both parts stripped; keys
`before` and `after` add the value to the respective set; any other key
raises `ValueError`. -/
def parseOptions (name : String) :
    List String → PluginOptions → Except BaseExc PluginOptions
  | [], acc => .ok acc
  | option :: rest, acc =>
    if option = "required" then
      parseOptions name rest { acc with required := true }
    else
      let parts := partitionEq option
      let key := pyStrip parts.1
      let value := pyStrip parts.2.2
      if key = "before" then
        parseOptions name rest { acc with before := acc.before ++ [value] }
      else if key = "after" then
        parseOptions name rest { acc with after := acc.after ++ [value] }
      else
        .error (.valueError ("unrecognized config section option " ++ key
          ++ " for SectionPlugin " ++ name))

/-- Embedding of `SectionPlugin.load`: build a plugin from an entry point,
parsing its option strings. -/
def SectionPlugin.load (entry_point : EntryPoint) : Except BaseExc SectionPlugin :=
  match parseOptions entry_point.name entry_point.extras ⟨[], [], false⟩ with
  | .error e => .error e
  | .ok o =>
    .ok ⟨entry_point.name, entry_point.digestFun, o.required, o.before,
      o.after, entry_point.id⟩

/-- Predicate on an option string deciding whether the parse loop rejects
it: not the `required` flag, and its stripped key (the part before the
first `=`) is neither `before` nor `after`. -/
def malformedOption (option : String) : Bool :=
  option != "required"
    && (let key := pyStrip (partitionEq option).1
        key != "before" && key != "after")

/-- Observable outcome of `load_configuration`: the returned
plugin-identity-keyed content (or the raised error), the final state of
the caller's document mapping, and the order in which plugin digests were
invoked. -/
structure LoadResult where
  result : Except PyErr (List (Nat × Node))
  finalConfig : List (String × Node)
  digestOrder : List Nat

/-- Top-level keys of the document not claimed by any plugin's section
(computed after the `logging` entry has been popped). -/
def unmatchedKeys (config : List (String × Node)) (plugins : List SectionPlugin) :
    List String :=
  (config.map Prod.fst).filter (fun k => plugins.all (fun pl => pl.sectionName ≠ k))

/-- Plugin-processing loop of `load_configuration`: plugins are visited in
the order of the tuple passed in; a present section has its digest
invoked, retaining non-`None` results keyed by plugin identity; an absent
required section raises `ConfigurationError` at `root`; an absent optional
section is skipped. -/
def digestLoop (config : List (String × Node)) :
    List SectionPlugin → List (Nat × Node) → List Nat → LoadResult
  | [], content, order => ⟨.ok content, config, order⟩
  | pl :: rest, content, order =>
    match alookup pl.sectionName config with
    | Option.none =>
      if pl.required then
        ⟨.error (.configurationError (.msg ("missing section " ++ pl.sectionName))
          (some "root")), config, order⟩
      else digestLoop config rest content order
    | some section_data =>
      match pl.digest section_data with
      | some out => digestLoop config rest (content ++ [(pl.id, out)]) (order ++ [pl.id])
      | Option.none => digestLoop config rest content (order ++ [pl.id])

/-- Embedding of `load_configuration`: pop the `logging` entry from the
caller's mapping (and apply it, a side effect outside the document);
raise `ConfigurationError` at `root` when any remaining top-level key is
claimed by no plugin; otherwise run the plugin loop. -/
def load_configuration (config_data : List (String × Node))
    (plugins : List SectionPlugin) : LoadResult :=
  let config := removeKey "logging" config_data
  let unmatched := unmatchedKeys config plugins
  if unmatched.isEmpty then digestLoop config plugins [] []
  else
    ⟨.error (.configurationError
      (.msg ("unknown config sections " ++ String.intercalate ", " unmatched))
      (some "root")), config, []⟩

/-- Behaviour of one payload submitted to a runner: its identity, the tick
of the scheduling loop at which its task completes, and the value it
returns (or the exception it raises). `Node.null` is Python `None`. -/
structure FFSpec where
  id : Nat
  doneAt : Nat
  result : Except BaseExc Node

/-- How a payload entered the runner: `fireForget` via
`AsyncioRunner.register_payload` (wrapped in `raise_return`), `execution`
via `run_payload` (wrapped in an `AsyncExecution`). -/
inductive PayloadKind where
  | fireForget (p : FFSpec)
  | execution (p : FFSpec)

/-- Modelled from the spec: `raise_return` of the missing module
`cobald/utility/concurrent/async_tools.py`. It awaits the payload and, if
the payload produced an observable (non-`None`) return value, raises
`OrphanedReturn(who=payload, value=value)`; payload exceptions propagate
unchanged. The returned value is the exception (if any) with which the
wrapped task completes. -/
def raise_return_outcome (p : FFSpec) : Option BaseExc :=
  match p.result with
  | .error e => some e
  | .ok .null => Option.none
  | .ok v => some (.orphanedReturn p.id v)

/-- Modelled from the spec: `AsyncExecution.wait` of the missing module
`async_tools.py`. The one caller blocked on `run_payload` receives the
payload's result, or its failure is re-raised to that caller only. -/
def AsyncExecution.wait (p : FFSpec) : Except BaseExc Node := p.result

/-- Exception (if any) with which a scheduled task completes. Modelled
from the spec for the `execution` case: the `AsyncExecution` coroutine
captures the payload's outcome for its waiter and itself returns `None`,
so the task never completes with an exception. -/
def taskOutcome : PayloadKind → Option BaseExc
  | .fireForget p => raise_return_outcome p
  | .execution _ => Option.none

/-- A task tracked in `AsyncioRunner._tasks`. -/
structure RTask where
  kind : PayloadKind

/-- Tick at which the task's coroutine finishes. -/
def RTask.doneAt (t : RTask) : Nat :=
  match t.kind with
  | .fireForget p => p.doneAt
  | .execution p => p.doneAt

/-- Python `task.done()` at a given tick of the loop. -/
def RTask.done (t : RTask) (tick : Nat) : Bool :=
  t.doneAt ≤ tick

/-- Embedding of `AsyncioRunner._manage_running`: iterate over a copy of
the task set, remove each finished task, and re-raise the exception of
the first finished task that failed; the second component is the task set
left behind (`self._tasks` at the moment an exception is raised, which
the fatal path then cancels). -/
def manage_running (tick : Nat) : List RTask → Option BaseExc × List RTask
  | [] => (Option.none, [])
  | t :: rest =>
    if t.done tick then
      match taskOutcome t.kind with
      | some e => (some e, rest)
      | Option.none => manage_running tick rest
    else
      let res := manage_running tick rest
      (res.1, t :: res.2)

/-- State of the scheduling loop: current tick, the pending-submission
queue `self._payloads`, the tracked task set `self._tasks`, and the
`running` event. -/
structure LoopState where
  tick : Nat
  payloads : List PayloadKind
  tasks : List RTask
  runningSet : Bool

/-- Embedding of `AsyncioRunner._start_outstanding`: under the queue lock,
turn every pending payload into a tracked task and clear the queue. -/
def start_outstanding (st : LoopState) : LoopState :=
  { st with payloads := [], tasks := st.tasks ++ st.payloads.map RTask.mk }

/-- Result of `await_all`: either the loop terminated (normally after
`running` was cleared, or by re-raising a task failure after
`_cancel_running` cancelled the listed tasks), or the given fuel ran out
while the loop was still ticking. -/
inductive AwaitResult where
  | finished (res : Except BaseExc Unit) (tasks : List RTask)
  | outOfFuel (st : LoopState)

/-- Embedding of `AsyncioRunner.await_all`: while `running` is set, start
outstanding payloads, reap finished tasks, and sleep one tick; when a
reaped task failed, cancel every remaining tracked task and re-raise.
`fuel` bounds how many ticks are simulated. -/
def await_all : Nat → LoopState → AwaitResult
  | 0, st => .outOfFuel st
  | fuel + 1, st =>
    if st.runningSet then
      let st1 := start_outstanding st
      match manage_running st1.tick st1.tasks with
      | (some e, remaining) => .finished (.error e) remaining
      | (Option.none, remaining) =>
        await_all fuel { st1 with tasks := remaining, tick := st1.tick + 1 }
    else .finished (.ok ()) st.tasks

/-- Embedding of `threading.Event` as its flag, with `Event.set` returning
the value Python returns: `None`. -/
def Event.set (_flag : Bool) : Option Node × Bool := (Option.none, true)

/-- Python truthiness of an optional value, with `Option.none` standing
for `None`. -/
def pyTruthy : Option Node → Bool
  | Option.none => false
  | some .null => false
  | some (.bool b) => b
  | some (.int n) => !(n == 0)
  | some (.str s) => !(s == "")
  | some (.dict es) => !es.isEmpty
  | some (.list xs) => !xs.isEmpty

/-- Embedding of `BaseRunner.run`: under the lock, the guard
`assert not self.running.set()` is evaluated — its condition is the
truthiness of `not <return value of Event.set>` — then `running` is set,
`self._run()` executes (its outcome is the `body` argument), and the
`finally` clause clears `running`. Returns the call's outcome and the
final `running` flag. -/
def BaseRunner.run (running : Bool) (body : Except BaseExc Unit) :
    Except BaseExc Unit × Bool :=
  let setResult := Event.set running
  if pyTruthy setResult.1 then
    (.error (.assertionError "cannot re-run"), false)
  else
    let running2 := (Event.set setResult.2).2
    match running2 with
    | _ => (body, false)

/-- State of an `AsyncioRunner` object: the attributes assigned by
`BaseRunner.__init__` and `AsyncioRunner.__init__` (`self._payloads`,
`self.running`, `self._tasks`). `stoppedAttr` models the attribute
`self._stopped` read by `stop`: `Option.none` means the attribute was
never assigned, which is its state after `__init__` since no method in
the sources assigns it. -/
structure AsyncioRunner where
  payloads : List PayloadKind
  running : Bool
  tasks : List RTask
  stoppedAttr : Option Bool

/-- Embedding of `AsyncioRunner.__init__` (via `BaseRunner.__init__`):
empty payload queue, `running` unset, no tasks, and no `_stopped`
attribute. -/
def AsyncioRunner.init : AsyncioRunner :=
  ⟨[], false, [], Option.none⟩

/-- Embedding of `AsyncioRunner.register_payload`: append the payload,
wrapped in `raise_return`, to the pending queue. -/
def AsyncioRunner.register_payload (r : AsyncioRunner) (payload : FFSpec) :
    AsyncioRunner :=
  { r with payloads := r.payloads ++ [.fireForget payload] }

/-- Embedding of the submission half of `AsyncioRunner.run_payload`: wrap
the payload in an `AsyncExecution` and register its coroutine; the caller
then blocks on `AsyncExecution.wait`. -/
def AsyncioRunner.run_payload_submit (r : AsyncioRunner) (payload : FFSpec) :
    AsyncioRunner :=
  { r with payloads := r.payloads ++ [.execution payload] }

/-- Embedding of `AsyncioRunner.run`/`_run`: the re-run guard never fires
(see `BaseRunner.run`), `running` is set, and the event loop drives
`await_all` for at most `fuel` ticks. `Option.none` means the loop was
still ticking when the fuel ran out; otherwise the outcome of `run()` and
the state of the runner after its `finally` clause are returned. -/
def AsyncioRunner.runFor (r : AsyncioRunner) (fuel : Nat) :
    Option (Except BaseExc Unit × AsyncioRunner) :=
  match await_all fuel ⟨0, r.payloads, r.tasks, true⟩ with
  | .finished res tasks =>
    some (res, { r with payloads := [], tasks := tasks, running := false })
  | .outOfFuel _ => Option.none

/-- Embedding of `AsyncioRunner.stop`: under the lock, clear `running` and
call `cancel` on every tracked task; then read `self._stopped` — an
attribute no code ever assigns — so the subsequent `.wait()` is an
`AttributeError` unless the attribute were present. Returns the call
outcome and the runner state after the mutations that precede the read. -/
def AsyncioRunner.stop (r : AsyncioRunner) : Except BaseExc Unit × AsyncioRunner :=
  let r1 := { r with running := false }
  match r1.stoppedAttr with
  | Option.none => (.error (.attributeError "_stopped"), r1)
  | some _ => (.ok (), r1)

/-- Operations a client can perform on an `AsyncioRunner` before calling
`stop`: fire-and-forget registration, a `run_payload` submission, or
driving `run()` for a bounded number of ticks. -/
inductive RunnerOp where
  | register (p : FFSpec)
  | submit (p : FFSpec)
  | runLoop (fuel : Nat)

/-- Effect of one operation on the runner state. -/
def applyOp (r : AsyncioRunner) : RunnerOp → AsyncioRunner
  | .register p => r.register_payload p
  | .submit p => r.run_payload_submit p
  | .runLoop fuel =>
    match await_all fuel ⟨0, r.payloads, r.tasks, true⟩ with
    | .finished _ tasks => { r with payloads := [], tasks := tasks, running := false }
    | .outOfFuel st =>
      { r with payloads := st.payloads, tasks := st.tasks, running := st.runningSet }

/-- Runner state reached from `__init__` by a sequence of operations. -/
def applyOps (r : AsyncioRunner) (ops : List RunnerOp) : AsyncioRunner :=
  ops.foldl applyOp r

/-- Boolean success discriminator for `Except`. -/
def exceptIsOk {ε α : Type} : Except ε α → Bool
  | .ok _ => true
  | .error _ => false

/-! Helper lemmas shared by the claim theorems. -/

/-- No operation on an `AsyncioRunner` ever assigns the `_stopped`
attribute read by `stop`. -/
theorem aux_stoppedAttr_invariant :
    ∀ (ops : List RunnerOp) (r : AsyncioRunner), r.stoppedAttr = Option.none →
      (applyOps r ops).stoppedAttr = Option.none := by
  intro ops
  induction ops with
  | nil => intro r h; exact h
  | cons op rest ih =>
    intro r h
    have hstep : (applyOp r op).stoppedAttr = Option.none := by
      cases op with
      | register p => simpa [applyOp, AsyncioRunner.register_payload] using h
      | submit p => simpa [applyOp, AsyncioRunner.run_payload_submit] using h
      | runLoop fuel =>
        cases hres : await_all fuel ⟨0, r.payloads, r.tasks, true⟩ with
        | finished res tasks => simpa [applyOp, hres] using h
        | outOfFuel st => simpa [applyOp, hres] using h
    simpa [applyOps, List.foldl] using ih (applyOp r op) hstep

/-- The plugin loop never touches the document mapping it reads from. -/
theorem aux_digestLoop_finalConfig :
    ∀ (pls : List SectionPlugin) (cfg : List (String × Node))
      (content : List (Nat × Node)) (order : List Nat),
      (digestLoop cfg pls content order).finalConfig = cfg := by
  intro pls
  induction pls with
  | nil => intro cfg content order; rfl
  | cons pl rest ih =>
    intro cfg content order
    cases hsec : alookup pl.sectionName cfg with
    | none =>
      by_cases hreq : pl.required
      · simp [digestLoop, hsec, hreq]
      · simp [digestLoop, hsec, hreq, ih]
    | some section_data =>
      cases hout : pl.digest section_data with
      | none => simp [digestLoop, hsec, hout, ih]
      | some out => simp [digestLoop, hsec, hout, ih]

/-- Whatever `load_configuration` returns or raises, the caller's mapping
ends up as the input minus its `logging` entry. -/
theorem aux_load_finalConfig (config_data : List (String × Node))
    (plugins : List SectionPlugin) :
    (load_configuration config_data plugins).finalConfig
      = removeKey "logging" config_data := by
  unfold load_configuration
  by_cases h : (unmatchedKeys (removeKey "logging" config_data) plugins).isEmpty
  · simp [h, aux_digestLoop_finalConfig]
  · simp [h]

/-- Looking up a key in a dict it was removed from yields nothing. -/
theorem aux_alookup_removeKey_self (k : String) (l : List (String × Node)) :
    alookup k (removeKey k l) = Option.none := by
  induction l with
  | nil => rfl
  | cons kv rest ih =>
    by_cases h : kv.1 = k
    · simpa [removeKey, h] using ih
    · simpa [removeKey, h, alookup] using ih

/-- Removing one key leaves lookups of every other key unchanged. -/
theorem aux_alookup_removeKey_ne (k k2 : String) (h : k ≠ k2)
    (l : List (String × Node)) :
    alookup k (removeKey k2 l) = alookup k l := by
  induction l with
  | nil => rfl
  | cons kv rest ih =>
    by_cases h1 : kv.1 = k2
    · have hk1 : kv.1 ≠ k := by
        rw [h1]; exact fun hk => h hk.symm
      simp [removeKey, h1, alookup, hk1, ih, Ne.symm h]
    · by_cases h2 : kv.1 = k
      · simp [removeKey, h1, alookup, h2, h, Ne.symm h]
      · simp [removeKey, h1, alookup, h2, ih, h, Ne.symm h]

/-! Claim C2. -/

/-- C2: the source intends that at most one `run()` be active per
`BaseRunner` and that re-running be rejected (`assert not
self.running.set(), "cannot re-run"`), but `threading.Event.set()`
returns `None`, so the assert condition is always true: `run` never
raises the misuse error, for any prior state of `running` — including an
instance already running or one that already ran to completion. -/
theorem c2_rerun_guard_never_fires :
    (∀ (running : Bool) (body : Except BaseExc Unit),
      BaseRunner.run running body = (body, false))
    ∧ (BaseRunner.run (BaseRunner.run false (.ok ())).2 (.ok ())).1 = .ok ()
    ∧ (BaseRunner.run true (.ok ())).1 = .ok () := by
  refine ⟨fun running body => rfl, rfl, rfl⟩

/-! Claim C4. -/

/-- C4: calling `stop()` on an `AsyncioRunner` raises `AttributeError`
instead of completing normally, in every state reachable from
`__init__` by registrations, `run_payload` submissions and `run()`
activity, because `self._stopped` is never assigned anywhere in the
sources before `stop` reads it. -/
theorem c4_stop_raises_attribute_error (ops : List RunnerOp) :
    (AsyncioRunner.stop (applyOps AsyncioRunner.init ops)).1
      = .error (.attributeError "_stopped") := by
  have h : (applyOps AsyncioRunner.init ops).stoppedAttr = Option.none :=
    aux_stoppedAttr_invariant ops AsyncioRunner.init rfl
  simp [AsyncioRunner.stop, h]

/-! Claim C1. -/

/-- Plugin for section `A` with no ordering constraints, declared second. -/
def c1PluginA : SectionPlugin :=
  ⟨"A", fun _ => some (.str "digest A"), false, [], [], 0⟩

/-- Plugin for section `B` declaring `after = A`, declared first. -/
def c1PluginB : SectionPlugin :=
  ⟨"B", fun _ => some (.str "digest B"), false, [], ["A"], 1⟩

/-- Document carrying both sections `A` and `B`. -/
def c1Doc : List (String × Node) := [("A", .null), ("B", .null)]

/-- Plugin for section `C` declaring `after = D`. -/
def c1PluginC : SectionPlugin :=
  ⟨"C", fun _ => some (.str "digest C"), false, [], ["D"], 2⟩

/-- Plugin for section `D` declaring `after = C`, cyclically with `C`. -/
def c1PluginD : SectionPlugin :=
  ⟨"D", fun _ => some (.str "digest D"), false, [], ["C"], 3⟩

/-- Document carrying both sections `C` and `D`. -/
def c1DocCyclic : List (String × Node) := [("C", .null), ("D", .null)]

/-- C1: `load_configuration` invokes plugin digests in the declaration
order of the tuple passed in, ignoring the `before`/`after` constraints
entirely: with plugin `B` declaring `after = A` but declared first, `B`'s
digest runs before `A`'s; and a cyclic constraint pair is not reported as
an error — the call succeeds silently. -/
theorem c1_load_configuration_ignores_ordering :
    (load_configuration c1Doc [c1PluginB, c1PluginA]).digestOrder = [1, 0]
    ∧ "A" ∈ c1PluginB.after
    ∧ exceptIsOk (load_configuration c1DocCyclic [c1PluginC, c1PluginD]).result
        = true := by
  refine ⟨by decide, by decide, by decide⟩

/-! Claim C10. -/

/-- C10: `load_configuration` mutates the caller's document: whether it
returns or raises, the `logging` entry has been popped from the mapping,
and every other top-level entry is left unchanged. -/
theorem c10_logging_popped_frame (config_data : List (String × Node))
    (plugins : List SectionPlugin) :
    alookup "logging" (load_configuration config_data plugins).finalConfig
      = Option.none
    ∧ ∀ k, k ≠ "logging" →
        alookup k (load_configuration config_data plugins).finalConfig
          = alookup k config_data := by
  rw [aux_load_finalConfig]
  exact ⟨aux_alookup_removeKey_self "logging" config_data,
    fun k hk => aux_alookup_removeKey_ne k "logging" hk config_data⟩

/-- Witness for C10 at a concrete document: after the call the caller's
mapping has no `logging` entry while the entry `x` is untouched. -/
theorem c10_logging_popped_frame_witness :
    alookup "logging"
        (load_configuration [("logging", .null), ("x", .int 1)] []).finalConfig
      = Option.none
    ∧ alookup "x"
        (load_configuration [("logging", .null), ("x", .int 1)] []).finalConfig
      = alookup "x" [("logging", .null), ("x", .int 1)] :=
  ⟨(c10_logging_popped_frame [("logging", .null), ("x", .int 1)] []).1,
   (c10_logging_popped_frame [("logging", .null), ("x", .int 1)] []).2 "x"
     (by decide)⟩

/-! Claim C7. -/

/-- C7: whenever at least one top-level key (after `logging` is taken out)
matches no plugin's section, `load_configuration` raises a
`ConfigurationError` at `where = root` whose message joins exactly the
unmatched keys, and no plugin digest is invoked; the final conjunct
characterises `unmatchedKeys` as precisely the undeclared remaining keys. -/
theorem c7_unknown_sections_error (config_data : List (String × Node))
    (plugins : List SectionPlugin)
    (h : unmatchedKeys (removeKey "logging" config_data) plugins ≠ []) :
    (load_configuration config_data plugins).result
      = .error (.configurationError
          (.msg ("unknown config sections " ++ String.intercalate ", "
            (unmatchedKeys (removeKey "logging" config_data) plugins)))
          (some "root"))
    ∧ (load_configuration config_data plugins).digestOrder = []
    ∧ ∀ k, k ∈ unmatchedKeys (removeKey "logging" config_data) plugins ↔
        (k ∈ (removeKey "logging" config_data).map Prod.fst
          ∧ ∀ pl ∈ plugins, pl.sectionName ≠ k) := by
  have hne : (unmatchedKeys (removeKey "logging" config_data) plugins).isEmpty
      = false := by
    cases hu : unmatchedKeys (removeKey "logging" config_data) plugins with
    | nil => exact absurd hu h
    | cons a rest => rfl
  refine ⟨by simp [load_configuration, hne], by simp [load_configuration, hne], ?_⟩
  intro k
  simp [unmatchedKeys, List.mem_filter, List.all_eq_true]

/-- Witness for C7: the document `{"foo": null}` with no plugins fails at
`root` with a message naming `foo`, and no digest runs. -/
theorem c7_unknown_sections_error_witness :
    (load_configuration [("foo", Node.null)] []).result
      = .error (.configurationError
          (.msg ("unknown config sections " ++ String.intercalate ", "
            (unmatchedKeys (removeKey "logging" [("foo", Node.null)]) [])))
          (some "root"))
    ∧ (load_configuration [("foo", Node.null)] []).digestOrder = [] :=
  ⟨(c7_unknown_sections_error [("foo", Node.null)] [] (by decide)).1,
   (c7_unknown_sections_error [("foo", Node.null)] [] (by decide)).2.1⟩

/-! Claim C8. -/

/-- Entry point for section `x` carrying the unrecognized option `bogus`. -/
def c8EntryPoint : EntryPoint := ⟨"x", ["bogus"], fun _ => Option.none, 0⟩

/-- Counterexample to C8 as stated: loading a plugin whose entry point
carries the option string `bogus` does fail, but the raised error is a
`ValueError`, which is not a `ConfigurationError`. -/
theorem c8_counterexample :
    SectionPlugin.load c8EntryPoint
      = .error (.valueError
          "unrecognized config section option bogus for SectionPlugin x")
    ∧ PyErr.isConfigurationError
        (.base (.valueError
          "unrecognized config section option bogus for SectionPlugin x"))
      = false :=
  ⟨by rfl, by rfl⟩

/-- Malformed options make the parse loop of `SectionPlugin.load` fail
with a `ValueError` naming the stripped key of the first option rejected. -/
theorem aux_parse_malformed :
    ∀ (l : List String) (name : String) (acc : PluginOptions),
      (∃ o ∈ l, malformedOption o = true) →
      ∃ key, parseOptions name l acc
        = .error (.valueError ("unrecognized config section option " ++ key
            ++ " for SectionPlugin " ++ name)) := by
  intro l
  induction l with
  | nil =>
    rintro name acc ⟨o, ho, _⟩
    exact absurd ho (List.not_mem_nil o)
  | cons o rest ih =>
    rintro name acc ⟨o2, ho2, hmal⟩
    by_cases hreq : o = "required"
    · have hrest : o2 ∈ rest := by
        rcases List.mem_cons.mp ho2 with h | h
        · exfalso
          rw [h, hreq] at hmal
          exact absurd hmal (by decide)
        · exact h
      obtain ⟨key, hkey⟩ := ih name { acc with required := true } ⟨o2, hrest, hmal⟩
      exact ⟨key, by simpa [parseOptions, hreq] using hkey⟩
    · by_cases hb : pyStrip (partitionEq o).1 = "before"
      · have hofalse : malformedOption o = false := by
          simp [malformedOption, hb]
        have hrest : o2 ∈ rest := by
          rcases List.mem_cons.mp ho2 with h | h
          · exfalso; rw [h] at hmal; rw [hofalse] at hmal; cases hmal
          · exact h
        obtain ⟨key, hkey⟩ :=
          ih name { acc with before := acc.before ++ [pyStrip (partitionEq o).2.2] }
            ⟨o2, hrest, hmal⟩
        exact ⟨key, by simpa [parseOptions, hreq, hb] using hkey⟩
      · by_cases ha : pyStrip (partitionEq o).1 = "after"
        · have hofalse : malformedOption o = false := by
            simp [malformedOption, ha]
          have hrest : o2 ∈ rest := by
            rcases List.mem_cons.mp ho2 with h | h
            · exfalso; rw [h] at hmal; rw [hofalse] at hmal; cases hmal
            · exact h
          obtain ⟨key, hkey⟩ :=
            ih name { acc with after := acc.after ++ [pyStrip (partitionEq o).2.2] }
              ⟨o2, hrest, hmal⟩
          exact ⟨key, by simpa [parseOptions, hreq, hb, ha] using hkey⟩
        · exact ⟨pyStrip (partitionEq o).1, by simp [parseOptions, hreq, hb, ha]⟩

/-- C8 (amended): a plugin entry point carrying an option string the parse
loop recognizes neither as the `required` flag nor as a `before`/`after`
setting fails at load time, and the error is a `ValueError` naming the
offending option key — not a `ConfigurationError`. -/
theorem c8_value_error_on_malformed_option (entry_point : EntryPoint)
    (option : String) (h1 : option ∈ entry_point.extras)
    (h2 : malformedOption option = true) :
    ∃ key, SectionPlugin.load entry_point
      = .error (.valueError ("unrecognized config section option " ++ key
          ++ " for SectionPlugin " ++ entry_point.name)) := by
  obtain ⟨key, hkey⟩ :=
    aux_parse_malformed entry_point.extras entry_point.name ⟨[], [], false⟩
      ⟨option, h1, h2⟩
  exact ⟨key, by simp [SectionPlugin.load, hkey]⟩

/-- Witness for C8 (amended) at the concrete entry point with option
`bogus`. -/
theorem c8_value_error_on_malformed_option_witness :
    ("bogus" ∈ c8EntryPoint.extras ∧ malformedOption "bogus" = true)
    ∧ ∃ key, SectionPlugin.load c8EntryPoint
        = .error (.valueError ("unrecognized config section option " ++ key
            ++ " for SectionPlugin " ++ c8EntryPoint.name)) :=
  ⟨⟨by decide, by decide⟩,
   c8_value_error_on_malformed_option c8EntryPoint "bogus" (by decide) (by decide)⟩

/-! Claim C9. -/

/-- If every value of a mapping translates to itself, so does the whole
entry list. -/
theorem aux_entries_inert (w : PyWorld) (whereStr : String) :
    ∀ es : List (String × Node),
      (∀ kv ∈ es, ∀ q : String,
        Translator.inert kv.2 = true →
          Translator.translate_hierarchy w kv.2 q = .ok kv.2) →
      Translator.inertEntries es = true →
      Translator.translateEntries w whereStr es = .ok es := by
  intro es
  induction es with
  | nil => intro _ _; rfl
  | cons kv rest ih =>
    intro hmem hin
    obtain ⟨k1, v1⟩ := kv
    have hin2 : Translator.inert v1 = true ∧ Translator.inertEntries rest = true := by
      simpa [Translator.inertEntries, Bool.and_eq_true] using hin
    have hv : Translator.translate_hierarchy w v1 (whereStr ++ "." ++ k1) = .ok v1 :=
      hmem (k1, v1) (List.mem_cons_self _ _) _ hin2.1
    have hr : Translator.translateEntries w whereStr rest = .ok rest :=
      ih (fun kv2 h2 => hmem kv2 (List.mem_cons_of_mem _ h2)) hin2.2
    simp [Translator.translateEntries, hv, hr]

/-- If every element of a sequence translates to itself, so does the whole
element list, for any starting index. -/
theorem aux_items_inert (w : PyWorld) (whereStr : String) :
    ∀ (xs : List Node) (firstIdx : Nat),
      (∀ x ∈ xs, ∀ q : String,
        Translator.inert x = true →
          Translator.translate_hierarchy w x q = .ok x) →
      Translator.inertItems xs = true →
      Translator.translateItemsF w whereStr firstIdx xs = .ok xs := by
  intro xs
  induction xs with
  | nil => intro _ _ _; rfl
  | cons x rest ih =>
    intro firstIdx hmem hin
    have hin2 : Translator.inert x = true ∧ Translator.inertItems rest = true := by
      simpa [Translator.inertItems, Bool.and_eq_true] using hin
    have hx : Translator.translate_hierarchy w x
        (whereStr ++ "[" ++ toString firstIdx ++ "]") = .ok x :=
      hmem x (List.mem_cons_self _ _) _ hin2.1
    have hr : Translator.translateItemsF w whereStr (firstIdx + 1) rest = .ok rest :=
      ih (firstIdx + 1) (fun x2 h2 => hmem x2 (List.mem_cons_of_mem _ h2)) hin2.2
    simp [Translator.translateItemsF, hx, hr]

/-- Strong-induction core of C9: inert documents translate to themselves. -/
theorem aux_translate_inert :
    ∀ (n : Nat) (s : Node), sizeOf s ≤ n →
      ∀ (w : PyWorld) (whereStr : String), Translator.inert s = true →
        Translator.translate_hierarchy w s whereStr = .ok s := by
  intro n
  induction n with
  | zero =>
    intro s hs
    exfalso
    cases s <;> simp at hs
  | succ n ih =>
    intro s hs w whereStr hin
    cases s with
    | null => rfl
    | str s2 => rfl
    | int n2 => rfl
    | bool b2 => rfl
    | dict entries =>
      have hsz : sizeOf entries ≤ n := by
        have := Node.dict.sizeOf_spec entries
        omega
      have hmem : ∀ kv ∈ entries, ∀ q : String,
          Translator.inert kv.2 = true →
            Translator.translate_hierarchy w kv.2 q = .ok kv.2 := by
        intro kv hkv q hin2
        have h1 : sizeOf kv < sizeOf entries := List.sizeOf_lt_of_mem hkv
        have h2 : sizeOf kv.2 < sizeOf kv := by
          obtain ⟨a, b⟩ := kv
          simp
        exact ih kv.2 (by omega) w q hin2
      have hin2 : hasKey "__type__" entries = false
          ∧ Translator.inertEntries entries = true := by
        have := hin
        simp [Translator.inert, Bool.and_eq_true] at this
        exact ⟨this.1, this.2⟩
      have hee : Translator.translateEntries w whereStr entries = .ok entries :=
        aux_entries_inert w whereStr entries hmem hin2.2
      simp [Translator.translate_hierarchy, hee, hin2.1, Translator.wrapWhere]
    | list items =>
      have hsz : sizeOf items ≤ n := by
        have := Node.list.sizeOf_spec items
        omega
      have hmem : ∀ x ∈ items, ∀ q : String,
          Translator.inert x = true →
            Translator.translate_hierarchy w x q = .ok x := by
        intro x hx q hin2
        have h1 : sizeOf x < sizeOf items := List.sizeOf_lt_of_mem hx
        exact ih x (by omega) w q hin2
      have hii : Translator.translateItemsF w whereStr 0 items = .ok items :=
        aux_items_inert w whereStr items 0 hmem (by simpa [Translator.inert] using hin)
      simp [Translator.translate_hierarchy, hii, Translator.wrapWhere]

/-- C9: translating a document that carries no `__type__` marker anywhere
returns the structurally identical tree — scalars unchanged, sequences in
the same order, mappings with the same keys and recursively identical
values — for any interpreter state and any starting path. -/
theorem c9_translate_inert_identity (w : PyWorld) (s : Node) (whereStr : String)
    (h : Translator.inert s = true) :
    Translator.translate_hierarchy w s whereStr = .ok s :=
  aux_translate_inert (sizeOf s) s le_rfl w whereStr h

/-- Interpreter state in which nothing is importable and nothing is
callable; inert documents never consult it. -/
def plainWorld : PyWorld where
  importable := fun _ => false
  modules := fun _ => Option.none
  getattr := fun _ _ => Option.none
  call := fun _ _ _ => .error (.base (.other "not callable"))

/-- Concrete marker-free document exercising scalars, a sequence and a
nested mapping. -/
def c9Doc : Node :=
  .dict [("a", .int 3), ("b", .list [.null, .str "x", .dict [("c", .bool true)]])]

/-- Witness for C9 at the concrete document `c9Doc`. -/
theorem c9_translate_inert_identity_witness :
    Translator.inert c9Doc = true
    ∧ Translator.translate_hierarchy plainWorld c9Doc "root" = .ok c9Doc :=
  ⟨by decide, c9_translate_inert_identity plainWorld c9Doc "root" (by decide)⟩

/-! Claim C5. -/

/-- Outcome shape of the try/except frame: every error it lets out is a
`ConfigurationError` with `where` set. -/
theorem aux_wrapWhere_error (whereStr : String) (r : Except PyErr Node)
    (e : PyErr) (h : Translator.wrapWhere whereStr r = .error e) :
    ∃ what q, e = .configurationError what (some q) := by
  cases r with
  | ok v => simp [Translator.wrapWhere] at h
  | error err =>
    cases err with
    | base b =>
      simp [Translator.wrapWhere] at h
      exact ⟨.exc b, whereStr, h.symm⟩
    | configurationError what ws =>
      cases ws with
      | none =>
        simp [Translator.wrapWhere] at h
        exact ⟨what, whereStr, h.symm⟩
      | some q =>
        simp [Translator.wrapWhere] at h
        exact ⟨what, q, h.symm⟩

/-- Every call of `translate_hierarchy` is one try/except frame around its
body. -/
theorem aux_translate_is_wrapped (w : PyWorld) (s : Node) (whereStr : String) :
    ∃ r, Translator.translate_hierarchy w s whereStr
      = Translator.wrapWhere whereStr r := by
  cases s with
  | null => exact ⟨.ok .null, rfl⟩
  | str s2 => exact ⟨.ok (.str s2), rfl⟩
  | int n2 => exact ⟨.ok (.int n2), rfl⟩
  | bool b2 => exact ⟨.ok (.bool b2), rfl⟩
  | dict entries => exact ⟨_, rfl⟩
  | list items => exact ⟨_, rfl⟩

/-- Document whose node at diagnostic path `root.services[2].name` is a
construction naming the unresolvable factory `nope.Bad`. -/
def c5Doc : Node :=
  .dict [("services", .list [.int 0, .int 1,
    .dict [("name", .dict [("__type__", .str "nope.Bad")])]])]

/-- C5: every failure surfacing from `translate_hierarchy` is a
`ConfigurationError` with `where` set; and the failure at the malformed
node of `c5Doc` carries exactly the innermost path
`root.services[2].name` — the three enclosing frames propagate it
unchanged rather than re-tagging it with a shallower path. -/
theorem c5_error_attribution (w : PyWorld)
    (h1 : w.importable "nope.Bad" = false)
    (h2 : w.modules "nope" = Option.none) :
    (∀ (s : Node) (whereStr : String) (e : PyErr),
        Translator.translate_hierarchy w s whereStr = .error e →
        ∃ what q, e = .configurationError what (some q))
    ∧ Translator.translate_hierarchy w c5Doc "root"
        = .error (.configurationError
            (.exc (.importError "No module named nope"))
            (some "root.services[2].name")) := by
  constructor
  · intro s whereStr e h
    obtain ⟨r, hr⟩ := aux_translate_is_wrapped w s whereStr
    rw [hr] at h
    exact aux_wrapWhere_error whereStr r e h
  · have hpath : pySplitDot "nope.Bad" = ["nope", "Bad"] := by decide
    have hload : Translator.load_name w "nope.Bad"
        = .error (.base (.importError "No module named nope")) := by
      simp [Translator.load_name, hpath, h1, h2]
    have hcon : Translator.construct w [("__type__", Node.str "nope.Bad")] []
        = .error (.base (.importError "No module named nope")) := by
      simp [Translator.construct, hasKey, alookup, removeKey, hload]
    have hts : (toString (2 : Nat)) = "2" := by decide
    simp [c5Doc, Translator.translate_hierarchy, Translator.translateEntries,
      Translator.translateItemsF, Translator.wrapWhere, hasKey, hcon, hts]

/-- Witness for C5: in the interpreter state `plainWorld` (where
`nope.Bad` resolves to nothing) the malformed node of `c5Doc` is reported
at exactly `root.services[2].name`. -/
theorem c5_error_attribution_witness :
    Translator.translate_hierarchy plainWorld c5Doc "root"
      = .error (.configurationError
          (.exc (.importError "No module named nope"))
          (some "root.services[2].name")) :=
  (c5_error_attribution plainWorld rfl rfl).2

/-! Claim C6. -/

/-- Interpreter state with a module `pkg` carrying a factory `Widget`
(reachable only by attribute traversal, since direct import of
`pkg.Widget` fails); the factory records the exact positional and keyword
arguments it was invoked with. -/
def widgetWorld : PyWorld where
  importable := fun _ => false
  modules := fun s => if s = "pkg" then some (.str "module pkg") else Option.none
  getattr := fun o a =>
    match o with
    | .str "module pkg" =>
      if a = "Widget" then some (.str "factory Widget") else Option.none
    | _ => Option.none
  call := fun f args kwargs =>
    match f with
    | .str "factory Widget" =>
      .ok (.dict [("made", .list (args ++ kwargs.map Prod.snd))])
    | _ => .error (.base (.other "not callable"))

/-- C6: translating a mapping whose resolved form carries `__type__`
pops `__type__` for the dotted factory name and `__args__` (default
empty) for positional arguments, passes every remaining key as a named
argument, resolves the factory by module import with fallback to
attribute traversal when direct import fails, and returns exactly the
factory's result: the translation of
`{"__type__": "pkg.Widget", "__args__": [1, 2], "x": 3}` equals
`pkg.Widget(1, 2, x=3)`. The second conjunct covers the direct-import
branch of `load_name`. -/
theorem c6_construct_factory_call (w : PyWorld) (m f r : Node)
    (whereStr : String)
    (h1 : w.importable "pkg.Widget" = false)
    (h2 : w.modules "pkg" = some m)
    (h3 : w.getattr m "Widget" = some f)
    (h4 : w.call f [.int 1, .int 2] [("x", .int 3)] = .ok r) :
    Translator.translate_hierarchy w
        (.dict [("__type__", .str "pkg.Widget"),
                ("__args__", .list [.int 1, .int 2]), ("x", .int 3)]) whereStr
      = .ok r
    ∧ (∀ (name : String) (mod : Node), w.importable name = true →
        w.modules name = some mod → Translator.load_name w name = .ok mod) := by
  constructor
  · have hpath : pySplitDot "pkg.Widget" = ["pkg", "Widget"] := by decide
    have hload : Translator.load_name w "pkg.Widget" = .ok f := by
      simp [Translator.load_name, hpath, h1, h2, getattrChain, h3]
    simp [Translator.translate_hierarchy, Translator.translateEntries,
      Translator.translateItemsF, Translator.wrapWhere, hasKey,
      Translator.construct, alookup, removeKey, hload, h4]
  · intro name mod himp hmod
    simp [Translator.load_name, himp, hmod]

/-- Witness for C6: in `widgetWorld` the construction mapping translates
to exactly the factory's result on `(1, 2, x=3)`. -/
theorem c6_construct_factory_call_witness :
    Translator.translate_hierarchy widgetWorld
        (.dict [("__type__", .str "pkg.Widget"),
                ("__args__", .list [.int 1, .int 2]), ("x", .int 3)]) "root"
      = .ok (.dict [("made", .list [.int 1, .int 2, .int 3])]) :=
  (c6_construct_factory_call widgetWorld (.str "module pkg")
    (.str "factory Widget") (.dict [("made", .list [.int 1, .int 2, .int 3])])
    "root" rfl rfl rfl rfl).1

/-! Claim C3. -/

/-- A fire-and-forget payload that returned a non-`None` value completes
with the `OrphanedReturn` exception raised by its `raise_return` wrapper. -/
theorem aux_raise_return_orphan (p : FFSpec) (v : Node)
    (h : p.result = .ok v) (hnull : v ≠ .null) :
    raise_return_outcome p = some (.orphanedReturn p.id v) := by
  cases v with
  | null => exact absurd rfl hnull
  | str s => simp [raise_return_outcome, h]
  | int n => simp [raise_return_outcome, h]
  | bool b => simp [raise_return_outcome, h]
  | dict es => simp [raise_return_outcome, h]
  | list xs => simp [raise_return_outcome, h]

/-- Tick-loop induction for C3: with exactly the orphaning payload `p` and
the still-running sibling `q` in flight, the loop ticks until `p`
finishes, then reaps it, leaves `q` as the set handed to
`_cancel_running`, and terminates with the `OrphanedReturn` error. -/
theorem aux_await_orphan (p q : FFSpec) (v : Node)
    (hv : p.result = .ok v) (hnull : v ≠ .null) (hq : p.doneAt < q.doneAt) :
    ∀ (fuel tick : Nat) (pls : List PayloadKind) (tks : List RTask),
      tks ++ pls.map RTask.mk = [⟨.fireForget p⟩, ⟨.fireForget q⟩] →
      tick ≤ p.doneAt → p.doneAt < tick + fuel →
      await_all fuel ⟨tick, pls, tks, true⟩
        = .finished (.error (.orphanedReturn p.id v)) [⟨.fireForget q⟩] := by
  intro fuel
  induction fuel with
  | zero =>
    intro tick pls tks hshape htick hlt
    exfalso
    omega
  | succ fuel ih =>
    intro tick pls tks hshape htick hlt
    by_cases hdone : p.doneAt ≤ tick
    · have horphan : raise_return_outcome p = some (.orphanedReturn p.id v) :=
        aux_raise_return_orphan p v hv hnull
      simp [await_all, start_outstanding, hshape, manage_running, RTask.done,
        RTask.doneAt, taskOutcome, hdone, horphan]
    · have hq2 : ¬ q.doneAt ≤ tick := by omega
      have hnext := ih (tick + 1) [] [⟨.fireForget p⟩, ⟨.fireForget q⟩]
        (by simp) (by omega) (by omega)
      simpa [await_all, start_outstanding, hshape, manage_running, RTask.done,
        RTask.doneAt, hdone, hq2] using hnext

/-- The reap step neither raises nor invents tasks when every in-flight
task completes without an exception. -/
theorem aux_manage_none (tick : Nat) :
    ∀ tasks : List RTask,
      (∀ t ∈ tasks, taskOutcome t.kind = Option.none) →
      (manage_running tick tasks).1 = Option.none
      ∧ ∀ t ∈ (manage_running tick tasks).2, t ∈ tasks := by
  intro tasks
  induction tasks with
  | nil => exact fun _ => ⟨rfl, by simp [manage_running]⟩
  | cons t rest ih =>
    intro h
    have hres := ih (fun t2 h2 => h t2 (List.mem_cons_of_mem _ h2))
    by_cases hd : t.done tick = true
    · have ht : taskOutcome t.kind = Option.none := h t (List.mem_cons_self _ _)
      refine ⟨?_, ?_⟩
      · simpa [manage_running, hd, ht] using hres.1
      · intro t2 h2
        rw [show manage_running tick (t :: rest)
            = manage_running tick rest by simp [manage_running, hd, ht]] at h2
        exact List.mem_cons_of_mem _ (hres.2 t2 h2)
    · refine ⟨?_, ?_⟩
      · simpa [manage_running, hd] using hres.1
      · intro t2 h2
        rw [show manage_running tick (t :: rest)
            = ((manage_running tick rest).1,
                t :: (manage_running tick rest).2) by
          simp [manage_running, hd]] at h2
        rcases List.mem_cons.mp h2 with h3 | h3
        · exact h3 ▸ List.mem_cons_self _ _
        · exact List.mem_cons_of_mem _ (hres.2 t2 h3)

/-- While every payload and task completes without an exception, the
scheduling loop just keeps ticking: `await_all` never terminates on its
own while `running` stays set. -/
theorem aux_await_quiet :
    ∀ (fuel : Nat) (st : LoopState), st.runningSet = true →
      (∀ pk ∈ st.payloads, taskOutcome pk = Option.none) →
      (∀ t ∈ st.tasks, taskOutcome t.kind = Option.none) →
      ∃ st2, await_all fuel st = .outOfFuel st2 := by
  intro fuel
  induction fuel with
  | zero => exact fun st _ _ _ => ⟨st, rfl⟩
  | succ fuel ih =>
    intro st hr hp ht
    have hall : ∀ t ∈ st.tasks ++ st.payloads.map RTask.mk,
        taskOutcome t.kind = Option.none := by
      intro t h2
      rcases List.mem_append.mp h2 with h3 | h3
      · exact ht t h3
      · obtain ⟨pk, hpk, hEq⟩ := List.mem_map.mp h3
        rw [← hEq]
        exact hp pk hpk
    have hm := aux_manage_none st.tick (st.tasks ++ st.payloads.map RTask.mk) hall
    cases hmr : manage_running st.tick (st.tasks ++ st.payloads.map RTask.mk) with
    | mk fst snd =>
      have hfst : fst = Option.none := by
        have := hm.1
        rw [hmr] at this
        exact this
      subst hfst
      have hsnd : ∀ t ∈ snd, taskOutcome t.kind = Option.none := by
        intro t h2
        refine hall t ?_
        have := hm.2
        rw [hmr] at this
        exact this t h2
      obtain ⟨st2, h2⟩ := ih ⟨st.tick + 1, [], snd, true⟩ rfl (by simp) hsnd
      refine ⟨st2, ?_⟩
      cases st with
      | mk tick payloads tasks runningSet =>
        simp only at hr
        subst hr
        simpa [await_all, start_outstanding, hmr] using h2

/-- C3: a payload registered through `register_payload` that returns an
observable (non-`None`) value makes `run()` terminate by propagating an
`OrphanedReturn` whose `who` is the payload and whose `value` is the
returned value, after the still-outstanding sibling has been handed to
`_cancel_running`; by contrast, a `run_payload`-wrapped payload never
completes its task with an exception, its outcome (failure included)
reaches only the caller blocked on `AsyncExecution.wait`, and the running
loop is unaffected by it. -/
theorem c3_orphaned_return_fatal (p q payload : FFSpec) (v : Node) (fuel : Nat)
    (hv : p.result = .ok v) (hnull : v ≠ .null)
    (hfuel : p.doneAt < fuel) (hq : p.doneAt < q.doneAt) :
    ((AsyncioRunner.init.register_payload p).register_payload q).runFor fuel
      = some (.error (.orphanedReturn p.id v),
          { payloads := [], running := false,
            tasks := [⟨.fireForget q⟩], stoppedAttr := Option.none })
    ∧ taskOutcome (.execution payload) = Option.none
    ∧ AsyncExecution.wait payload = payload.result
    ∧ (∀ fuel2, (AsyncioRunner.init.run_payload_submit payload).runFor fuel2
        = Option.none) := by
  refine ⟨?_, rfl, rfl, ?_⟩
  · have h := aux_await_orphan p q v hv hnull hq fuel 0
      [.fireForget p, .fireForget q] [] (by simp) (by omega) (by omega)
    simp [AsyncioRunner.runFor, AsyncioRunner.register_payload,
      AsyncioRunner.init, h]
  · intro fuel2
    obtain ⟨st2, h2⟩ := aux_await_quiet fuel2 ⟨0, [.execution payload], [], true⟩
      rfl
      (by
        intro pk hpk
        rcases List.mem_singleton.mp hpk with h3
        rw [h3]
        rfl)
      (by simp)
    simp [AsyncioRunner.runFor, AsyncioRunner.run_payload_submit,
      AsyncioRunner.init, h2]

/-- Concrete payloads for the C3 witness. -/
def c3Orphaning : FFSpec := ⟨0, 1, .ok (.int 5)⟩

/-- Concrete still-running sibling for the C3 witness. -/
def c3Sibling : FFSpec := ⟨1, 5, .ok .null⟩

/-- Concrete failing tracked payload for the C3 witness. -/
def c3Tracked : FFSpec := ⟨2, 0, .error (.valueError "boom")⟩

/-- Witness for C3 at concrete payloads: the orphaning payload kills the
run with `OrphanedReturn 0 5` and the sibling is left to the cancel path,
while the failing tracked payload delivers its error to its waiter only
and leaves the loop ticking. -/
theorem c3_orphaned_return_fatal_witness :
    ((AsyncioRunner.init.register_payload c3Orphaning).register_payload
        c3Sibling).runFor 3
      = some (.error (.orphanedReturn c3Orphaning.id (.int 5)),
          { payloads := [], running := false,
            tasks := [⟨.fireForget c3Sibling⟩], stoppedAttr := Option.none })
    ∧ taskOutcome (.execution c3Tracked) = Option.none
    ∧ AsyncExecution.wait c3Tracked = c3Tracked.result
    ∧ (AsyncioRunner.init.run_payload_submit c3Tracked).runFor 7
      = Option.none := by
  have h := c3_orphaned_return_fatal c3Orphaning c3Sibling c3Tracked (.int 5) 3
    rfl (by intro h2; exact Node.noConfusion h2) (by decide) (by decide)
  exact ⟨h.1, h.2.1, h.2.2.1, h.2.2.2 7⟩
